import Mathlib

/-!
Verification of the ESPFetch bounded-concurrency request engine
(`src/esp_fetch/fetch.h`, `fetch.cpp`).

The engine's pure logic is shallowly embedded: machine `size_t` values are
`Nat` with the 32-bit `SIZE_MAX` sentinel made explicit, `esp_err_t` is
`Int`, the ArduinoJson document is a small inductive JSON value, and the
event-driven response accumulation (`ESPFetch::handleHttpEvent`) is a step
function folded over the event list the transport produces.  Side effects
of submission (semaphore take/give, task spawn, callback invocation) are
recorded in explicit trace records.
-/

namespace ESPFetchModel

/-- `std::numeric_limits<size_t>::max()` on the 32-bit ESP32 target; the
"unlimited" sentinel used for body/header limits. -/
def sizeMax : Nat := 4294967295

/-- `ESP_OK` (`esp_err.h`). -/
def ESP_OK : Int := 0

/-- `ESP_FAIL` (`esp_err.h`). -/
def ESP_FAIL : Int := -1

/-- `ESP_ERR_NO_MEM` (`esp_err.h`). -/
def ESP_ERR_NO_MEM : Int := 257

/-- `ESP_ERR_INVALID_SIZE` (`esp_err.h`), the size-exceeded error used by
the streaming accumulator. -/
def ESP_ERR_INVALID_SIZE : Int := 260

/-- Modelled from the spec: the transport collaborator's stable
human-readable error-name table (`esp_err_to_name`, external to this
repository).  Only the codes reachable in this engine need names; unknown
codes map to the collaborator's catch-all string. -/
def espErrToName (e : Int) : String :=
  if e = 0 then "ESP_OK"
  else if e = -1 then "ESP_FAIL"
  else if e = 257 then "ESP_ERR_NO_MEM"
  else if e = 258 then "ESP_ERR_INVALID_ARG"
  else if e = 259 then "ESP_ERR_INVALID_STATE"
  else if e = 260 then "ESP_ERR_INVALID_SIZE"
  else if e = 261 then "ESP_ERR_NOT_FOUND"
  else if e = 263 then "ESP_ERR_TIMEOUT"
  else "UNKNOWN ERROR"

/-- `esp_http_client_method_t`, restricted to the two methods the engine
submits. -/
inductive HttpMethod where
  | get
  | post
deriving DecidableEq

/-- `FetchRequestOptions` (fetch.h).  `contentType` is a nullable
`const char *`, modelled as `Option String`. -/
structure FetchRequestOptions where
  timeoutMs : Nat
  maxBodyBytes : Nat
  maxHeaderBytes : Nat
  skipTlsCommonNameCheck : Bool
  allowRedirects : Bool
  headers : List (String × String)
  contentType : Option String

/-- The default-constructed `FetchRequestOptions{}` (fetch.h field
initializers). -/
def defaultOptions : FetchRequestOptions :=
  { timeoutMs := 0
    maxBodyBytes := 0
    maxHeaderBytes := 0
    skipTlsCommonNameCheck := false
    allowRedirects := true
    headers := []
    contentType := none }

/-- `FetchConfig` (fetch.h). -/
structure FetchConfig where
  maxConcurrentRequests : Nat
  stackSize : Nat
  priority : Nat
  defaultTimeoutMs : Nat
  maxBodyBytes : Nat
  maxHeaderBytes : Nat
  slotAcquireTicks : Nat
  skipTlsCommonNameCheck : Bool
  followRedirects : Bool
  userAgent : Option String
  defaultContentType : Option String

/-- The default-constructed `FetchConfig{}` (fetch.h field initializers;
`stackSize = 6144 * sizeof(StackType_t)` with 4-byte `StackType_t`). -/
def defaultConfig : FetchConfig :=
  { maxConcurrentRequests := 4
    stackSize := 24576
    priority := 4
    defaultTimeoutMs := 15000
    maxBodyBytes := 16384
    maxHeaderBytes := 4096
    slotAcquireTicks := 0
    skipTlsCommonNameCheck := false
    followRedirects := true
    userAgent := some "ESPFetch/1.0"
    defaultContentType := some "application/json" }

/-- The fields of `ESPFetch::FetchJob` that the pure logic reads (the
callback/sync-handle delivery target is tracked in the submission trace
instead, since Lean functions have no decidable equality). -/
structure FetchJob where
  url : String
  method : HttpMethod
  body : String
  options : FetchRequestOptions
  bodyLimit : Nat
  headerLimit : Nat
  isStream : Bool

/-- `ESPFetch::FetchResponse` (fetch.cpp).  The body is a byte/char list
so that truncation arithmetic is exact. -/
structure FetchResponse where
  error : Int
  statusCode : Int
  body : List Char
  headers : List (String × String)
  bodyTruncated : Bool
  headersTruncated : Bool
  durationUs : Nat

/-- `StreamResult` (fetch.h). -/
structure StreamResult where
  error : Int
  statusCode : Int
  receivedBytes : Nat

/-- A small ArduinoJson `JsonDocument` model: exactly the shapes the engine
builds. -/
inductive Json where
  | null
  | bool (b : Bool)
  | num (n : Int)
  | str (s : String)
  | obj (fields : List (String × Json))

/-- Field lookup inside an object value (first match, as ArduinoJson
resolves a key). -/
def findField (fields : List (String × Json)) (k : String) : Option Json :=
  match fields with
  | [] => none
  | (k0, v) :: rest => if k0 = k then some v else findField rest k

/-- Lookup of a top-level member of a document. -/
def Json.getField (j : Json) (k : String) : Option Json :=
  match j with
  | .obj fields => findField fields k
  | _ => none

/-- The limit-merge performed by `enqueueRequest` (fetch.cpp lines
271-278) for buffered jobs: per-call value if non-zero, else config value;
a resolved 0 becomes the `SIZE_MAX` unlimited sentinel. -/
def mergeLimitJson (optLimit cfgLimit : Nat) : Nat :=
  let merged := if optLimit ≠ 0 then optLimit else cfgLimit
  if merged = 0 then sizeMax else merged

/-- Job construction inside `ESPFetch::enqueueRequest` (buffered/JSON
mode): the URL is copied into the job unchanged. -/
def mkJsonJob (cfg : FetchConfig) (url : String) (method : HttpMethod)
    (body : String) (opts : FetchRequestOptions) : FetchJob :=
  { url := url
    method := method
    body := body
    options := opts
    bodyLimit := mergeLimitJson opts.maxBodyBytes cfg.maxBodyBytes
    headerLimit := mergeLimitJson opts.maxHeaderBytes cfg.maxHeaderBytes
    isStream := false }

/-- Job construction inside `ESPFetch::enqueueStreamRequest`: the body
limit defaults to unlimited (not to the config value) when the per-call
`maxBodyBytes` is 0; the header limit merges as in buffered mode. -/
def mkStreamJob (cfg : FetchConfig) (url : String)
    (opts : FetchRequestOptions) : FetchJob :=
  { url := url
    method := HttpMethod.get
    body := ""
    options := opts
    bodyLimit := if opts.maxBodyBytes ≠ 0 then opts.maxBodyBytes else sizeMax
    headerLimit := mergeLimitJson opts.maxHeaderBytes cfg.maxHeaderBytes
    isStream := true }

/-- Follows the spec's words (claim C2's merge rule, for comparison with
the code): explicit non-zero per-call value wins, per-call 0 defers to
config, resolved 0 means unlimited. -/
def claimMergedLimit (cfgLimit optLimit : Nat) : Nat :=
  let merged := if optLimit ≠ 0 then optLimit else cfgLimit
  if merged = 0 then sizeMax else merged

/-- Modelled from the spec: the URL Normalizer policy of spec section 4.2,
which the README also documents but which has no counterpart anywhere in
fetch.cpp.  (a) insert the missing slash after `http:/`/`https:/`;
(b) collapse three-or-more slashes after the scheme to two; (c) strip a
stray leading colon in the host right after the scheme slashes. -/
def dropLeadingColon (cs : List Char) : List Char :=
  match cs with
  | ':' :: rest => rest
  | _ => cs

/-- Modelled from the spec: slash handling after the scheme colon for
`specNormalize` (policies (a), (b) and (c) of spec section 4.2). -/
def normalizeAfterScheme (scheme rest : List Char) (orig : String) : String :=
  let slashes := rest.takeWhile (fun c => c = '/')
  let hostPart := rest.dropWhile (fun c => c = '/')
  if slashes.length = 0 then orig
  else String.mk (scheme ++ ['/', '/'] ++ dropLeadingColon hostPart)

/-- Modelled from the spec: `normalize(url) -> url` of spec section 4.2
(missing from the implementation; defined here to state what the claim
expects of the code). -/
def specNormalize (url : String) : String :=
  let cs := url.data
  if cs.take 6 = ['h', 't', 't', 'p', 's', ':'] then
    normalizeAfterScheme (cs.take 6) (cs.drop 6) url
  else if cs.take 5 = ['h', 't', 't', 'p', ':'] then
    normalizeAfterScheme (cs.take 5) (cs.drop 5) url
  else url

/-- The per-job state that `ESPFetch::handleHttpEvent` reads and writes:
the job's limits and mode, the accumulating `FetchResponse` pieces, the
stream byte counter, and (model bookkeeping) the exact chunks handed to
the stream sink. -/
structure JobRunState where
  bodyLimit : Nat
  headerLimit : Nat
  isStream : Bool
  body : List Char
  headers : List (String × String)
  bodyTruncated : Bool
  headersTruncated : Bool
  errorCode : Int
  receivedBytes : Nat
  sinkLog : List (List Char)

/-- Byte cost of the captured headers, as the `projected` loop of
`handleHttpEvent` computes it (`hdr.name.size() + hdr.value.size()`
summed). -/
def headerCost (hs : List (String × String)) : Nat :=
  (hs.map (fun h => h.1.length + h.2.length)).sum

/-- Total bytes handed to the stream sink so far (model bookkeeping over
the sink log). -/
def deliveredBytes (s : JobRunState) : Nat :=
  (s.sinkLog.map List.length).sum

/-- The `toSend` computation of the stream branch of `handleHttpEvent`
(fetch.cpp lines 424-433): the chunk length, clipped with `std::min` to
the remaining budget when the body limit is finite. -/
def streamToSend (s : JobRunState) (len : Nat) : Nat :=
  if s.bodyLimit ≠ sizeMax then min len (s.bodyLimit - s.receivedBytes)
  else len

/-- The `HTTP_EVENT_ON_DATA` stream branch of `handleHttpEvent`
(fetch.cpp lines 423-444): over-limit events set `ESP_ERR_INVALID_SIZE`
and return `ESP_FAIL`; otherwise the chunk is clipped to the remaining
budget, forwarded to the sink, and a clipped chunk also fails and aborts.
`getStream` guarantees `onChunk` is non-null, so the sink is always
present. -/
def streamOnData (s : JobRunState) (data : List Char) : JobRunState × Int :=
  if s.bodyLimit ≠ sizeMax ∧ s.bodyLimit ≤ s.receivedBytes then
    ({ s with errorCode := ESP_ERR_INVALID_SIZE }, ESP_FAIL)
  else
    let toSend := streamToSend s data.length
    let s1 :=
      if 0 < toSend then
        { s with sinkLog := s.sinkLog ++ [data.take toSend]
                 receivedBytes := s.receivedBytes + toSend }
      else s
    if toSend < data.length then
      ({ s1 with errorCode := ESP_ERR_INVALID_SIZE }, ESP_FAIL)
    else (s1, ESP_OK)

/-- The `available` computation of the buffered branch of
`handleHttpEvent` (fetch.cpp lines 447-448): remaining body budget, 0
once the buffer is already at or over the limit. -/
def bufferedAvail (s : JobRunState) : Nat :=
  if s.body.length < s.bodyLimit then s.bodyLimit - s.body.length else 0

/-- The `copyLen` computation of the buffered branch (fetch.cpp line
449): `std::min(available, data_len)`. -/
def bufferedCopyLen (s : JobRunState) (len : Nat) : Nat :=
  min (bufferedAvail s) len

/-- The `HTTP_EVENT_ON_DATA` buffered/JSON branch of `handleHttpEvent`
(fetch.cpp lines 446-455): append up to `bodyLimit - body.size()` bytes,
set the permanent truncation flag when anything is dropped, never fail. -/
def bufferedOnData (s : JobRunState) (data : List Char) : JobRunState × Int :=
  let copyLen := bufferedCopyLen s data.length
  let s1 :=
    if 0 < copyLen then { s with body := s.body ++ data.take copyLen } else s
  let s2 :=
    if copyLen < data.length then { s1 with bodyTruncated := true } else s1
  (s2, ESP_OK)

/-- The `HTTP_EVENT_ON_HEADER` branch of `handleHttpEvent` (fetch.cpp
lines 460-472): append when the prospective total cost fits within the
header limit, else drop the header and set the truncation flag; never
fail. -/
def captureHeader (s : JobRunState) (nm v : String) : JobRunState × Int :=
  let projected := headerCost s.headers + nm.length + v.length
  if projected ≤ s.headerLimit then
    ({ s with headers := s.headers ++ [(nm, v)] }, ESP_OK)
  else
    ({ s with headersTruncated := true }, ESP_OK)

/-- The events `esp_http_client` pushes into the handler. -/
inductive HttpEvent where
  | onData (data : List Char)
  | onHeader (nm v : String)
  | other

/-- `ESPFetch::handleHttpEvent` on a valid event carrying this job as its
user data.  The `data && data_len > 0` guard skips empty data events. -/
def handleHttpEvent (s : JobRunState) (ev : HttpEvent) : JobRunState × Int :=
  match ev with
  | .onData data =>
    if data.length = 0 then (s, ESP_OK)
    else if s.isStream then streamOnData s data
    else bufferedOnData s data
  | .onHeader nm v => captureHeader s nm v
  | .other => (s, ESP_OK)

/-- The transport collaborator driving `handleHttpEvent` over a sequence
of events; per the event contract it stops delivering events once the
handler signals abort (`ESP_FAIL`).  Returns the final job state and the
last handler verdict. -/
def runEvents (s : JobRunState) (evs : List HttpEvent) : JobRunState × Int :=
  match evs with
  | [] => (s, ESP_OK)
  | ev :: rest =>
    let out := handleHttpEvent s ev
    if out.2 = ESP_FAIL then out
    else runEvents out.1 rest

/-- Fresh stream-mode accumulation state for a job with body limit `k`
(header limit left unlimited; streaming claims do not touch it). -/
def initStreamState (k : Nat) : JobRunState :=
  { bodyLimit := k
    headerLimit := sizeMax
    isStream := true
    body := []
    headers := []
    bodyTruncated := false
    headersTruncated := false
    errorCode := ESP_OK
    receivedBytes := 0
    sinkLog := [] }

/-- Fresh buffered-mode accumulation state for a job with body limit `k`. -/
def initBufferedState (k : Nat) : JobRunState :=
  { bodyLimit := k
    headerLimit := sizeMax
    isStream := false
    body := []
    headers := []
    bodyTruncated := false
    headersTruncated := false
    errorCode := ESP_OK
    receivedBytes := 0
    sinkLog := [] }

/-- The engine fields submission reads: the `_initialized` flag and the
config. -/
structure EngineState where
  initialized : Bool
  config : FetchConfig

/-- Observable effects of one submission call: its return value, whether
a semaphore slot was taken, whether it was given back inside the call,
whether a worker task was spawned, whether any caller callback ran inside
the call, and the job handed to the spawned task (none when no task owns
a job). -/
structure SubmitTrace where
  returned : Bool
  slotAcquired : Bool
  slotReleasedInSubmit : Bool
  taskSpawned : Bool
  callbackInvoked : Bool
  job : Option FetchJob

/-- The trace of a submission that failed before acquiring a slot. -/
def noSubmit : SubmitTrace :=
  { returned := false
    slotAcquired := false
    slotReleasedInSubmit := false
    taskSpawned := false
    callbackInvoked := false
    job := none }

/-- The trace of a submission that acquired a slot and then failed
(invalid stack size or task-spawn failure): the slot is given back and
the job destroyed inside the call. -/
def failAfterAcquire : SubmitTrace :=
  { returned := false
    slotAcquired := true
    slotReleasedInSubmit := true
    taskSpawned := false
    callbackInvoked := false
    job := none }

/-- `ESPFetch::enqueueRequest` (fetch.cpp lines 246-313) as an effect
trace.  `takeOk` is whether `xSemaphoreTake` finds a slot within the
configured wait, `spawnOk` whether `xTaskCreatePinnedToCore` succeeds. -/
def enqueueRequestM (st : EngineState) (url : String) (method : HttpMethod)
    (body : String) (opts : FetchRequestOptions)
    (takeOk spawnOk : Bool) : SubmitTrace :=
  if st.initialized = false then noSubmit
  else if takeOk = false then noSubmit
  else
    let job := mkJsonJob st.config url method body opts
    if st.config.stackSize = 0 then failAfterAcquire
    else if spawnOk = false then failAfterAcquire
    else
      { returned := true
        slotAcquired := true
        slotReleasedInSubmit := false
        taskSpawned := true
        callbackInvoked := false
        job := some job }

/-- `ESPFetch::enqueueStreamRequest` (fetch.cpp lines 315-379) as an
effect trace; `onChunkValid` is whether the chunk callback is non-null. -/
def enqueueStreamRequestM (st : EngineState) (url : String)
    (onChunkValid : Bool) (opts : FetchRequestOptions)
    (takeOk spawnOk : Bool) : SubmitTrace :=
  if st.initialized = false then noSubmit
  else if onChunkValid = false then noSubmit
  else if takeOk = false then noSubmit
  else
    let job := mkStreamJob st.config url opts
    if st.config.stackSize = 0 then failAfterAcquire
    else if spawnOk = false then failAfterAcquire
    else
      { returned := true
        slotAcquired := true
        slotReleasedInSubmit := false
        taskSpawned := true
        callbackInvoked := false
        job := some job }

/-- The error-shaped document the synchronous overloads build on failure
(`doc["ok"] = false; doc["error"]["message"] = msg`). -/
def syncFailDoc (msg : String) : Json :=
  Json.obj
    [("ok", Json.bool false),
     ("error", Json.obj [("message", Json.str msg)])]

/-- The async `ESPFetch::get(const char *, FetchCallback, ...)` overload:
a null URL fails before `enqueueRequest` is reached. -/
def getAsyncM (st : EngineState) (url : Option String)
    (opts : FetchRequestOptions) (takeOk spawnOk : Bool) : SubmitTrace :=
  match url with
  | none => noSubmit
  | some u => enqueueRequestM st u HttpMethod.get "" opts takeOk spawnOk

/-- The async `ESPFetch::post` overload; `body` is the serialized payload. -/
def postAsyncM (st : EngineState) (url : Option String) (body : String)
    (opts : FetchRequestOptions) (takeOk spawnOk : Bool) : SubmitTrace :=
  match url with
  | none => noSubmit
  | some u => enqueueRequestM st u HttpMethod.post body opts takeOk spawnOk

/-- `ESPFetch::getStream`: a null URL or null chunk callback fails before
`enqueueStreamRequest` is reached. -/
def getStreamM (st : EngineState) (url : Option String)
    (onChunkValid : Bool) (opts : FetchRequestOptions)
    (takeOk spawnOk : Bool) : SubmitTrace :=
  match url with
  | none => noSubmit
  | some u =>
    if onChunkValid = false then noSubmit
    else enqueueStreamRequestM st u onChunkValid opts takeOk spawnOk

/-- The synchronous `ESPFetch::get(const char *, TickType_t, ...)`
overload, paired with its submission trace.  `semAllocOk` is whether the
binary sync semaphore allocates; `waitRes` stands for the document
`waitForResult` returns on the success path (driven by concurrency, so a
parameter here). -/
def getSyncM (st : EngineState) (url : Option String)
    (opts : FetchRequestOptions) (semAllocOk takeOk spawnOk : Bool)
    (waitRes : Json) : Json × SubmitTrace :=
  match url with
  | none => (syncFailDoc "url is null", noSubmit)
  | some u =>
    if semAllocOk = false then
      (syncFailDoc "failed to allocate sync semaphore", noSubmit)
    else
      let tr := enqueueRequestM st u HttpMethod.get "" opts takeOk spawnOk
      if tr.returned = false then (syncFailDoc "failed to start http get", tr)
      else (waitRes, tr)

/-- The synchronous `ESPFetch::post` overload, analogous to `getSyncM`. -/
def postSyncM (st : EngineState) (url : Option String) (body : String)
    (opts : FetchRequestOptions) (semAllocOk takeOk spawnOk : Bool)
    (waitRes : Json) : Json × SubmitTrace :=
  match url with
  | none => (syncFailDoc "url is null", noSubmit)
  | some u =>
    if semAllocOk = false then
      (syncFailDoc "failed to allocate sync semaphore", noSubmit)
    else
      let tr := enqueueRequestM st u HttpMethod.post body opts takeOk spawnOk
      if tr.returned = false then (syncFailDoc "failed to start http post", tr)
      else (waitRes, tr)

/-- The synthesized timeout document of `ESPFetch::waitForResult`. -/
def timeoutDoc : Json :=
  syncFailDoc "timeout waiting for fetch result"

/-- The document `waitForResult` returns for a null handle or semaphore. -/
def invalidHandleDoc : Json :=
  syncFailDoc "invalid sync handle"

/-- `ESPFetch::waitForResult` (fetch.cpp lines 381-398): `takeOk` is the
outcome of `xSemaphoreTake(handle->done, waitTicks)`, `ready` the
handle's flag at the check, `stored` the handle's stored document. -/
def waitForResultM (handleValid takeOk ready : Bool) (stored : Json) : Json :=
  if handleValid = false then invalidHandleDoc
  else if takeOk && ready then stored
  else if ready then stored
  else timeoutDoc

/-- Last-wins insertion used when rebuilding the result's header map
(ArduinoJson object assignment semantics in `buildResult`). -/
def upsert (fields : List (String × Json)) (k : String) (v : Json) :
    List (String × Json) :=
  match fields with
  | [] => [(k, v)]
  | (k0, v0) :: rest =>
    if k0 = k then (k0, v) :: rest else (k0, v0) :: upsert rest k v

/-- The `headers` object of the result document, rebuilt from the ordered
captured pairs. -/
def buildHeadersObj (hs : List (String × String)) : List (String × Json) :=
  hs.foldl (fun acc h => upsert acc h.1 (Json.str h.2)) []

/-- `ESPFetch::buildResult` (fetch.cpp lines 557-583). -/
def buildResult (job : FetchJob) (r : FetchResponse) : Json :=
  let httpOk := decide (200 ≤ r.statusCode) && decide (r.statusCode < 400)
  Json.obj
    [("url", Json.str job.url),
     ("method", Json.str (if job.method = HttpMethod.post then "POST" else "GET")),
     ("status", Json.num r.statusCode),
     ("ok", Json.bool (decide (r.error = ESP_OK) && httpOk)),
     ("duration_ms", Json.num (Int.ofNat (r.durationUs / 1000))),
     ("body", Json.str (String.mk r.body)),
     ("body_truncated", Json.bool r.bodyTruncated),
     ("headers_truncated", Json.bool r.headersTruncated),
     ("headers", Json.obj (buildHeadersObj r.headers)),
     ("error",
      if r.error = ESP_OK then Json.null
      else
        Json.obj
          [("code", Json.num r.error),
           ("message", Json.str (espErrToName r.error))])]

/-- What `runJob` delivers at completion. -/
inductive Delivered where
  | stream (r : StreamResult)
  | json (doc : Json)

/-- Observable completion effects of `ESPFetch::runJob` (fetch.cpp lines
481-555). -/
structure RunTrace where
  delivered : Delivered
  slotReleases : Nat

/-- The tail of `ESPFetch::runJob` after the transport phase produced
`response` (and, for streams, `receivedBytes`): build and deliver the
result, then give the admission slot back exactly once (guarded only by
the semaphore existing), on success and failure alike. -/
def runJobM (job : FetchJob) (response : FetchResponse)
    (receivedBytes : Nat) (semExists : Bool) : RunTrace :=
  if job.isStream then
    { delivered :=
        Delivered.stream
          { error := response.error
            statusCode := response.statusCode
            receivedBytes := receivedBytes }
      slotReleases := if semExists then 1 else 0 }
  else
    { delivered := Delivered.json (buildResult job response)
      slotReleases := if semExists then 1 else 0 }

/-- Slot releases across one whole submission-plus-run lifetime: the
release inside a failed submission plus the release at the end of the
spawned job's run (when a job was spawned). -/
def totalReleases (tr : SubmitTrace) (response : FetchResponse)
    (receivedBytes : Nat) (semExists : Bool) : Nat :=
  (if tr.slotReleasedInSubmit then 1 else 0) +
  (match tr.job with
   | some j => (runJobM j response receivedBytes semExists).slotReleases
   | none => 0)

/-- The `esp_http_client_config_t` fields `runJob` derives from the job
and config (fetch.cpp lines 488-495). -/
structure HttpClientConfig where
  url : String
  timeoutMs : Nat
  disableAutoRedirect : Bool
  skipCertCommonNameCheck : Bool

/-- The transport-config construction at the top of `ESPFetch::runJob`. -/
def makeClientConfig (cfg : FetchConfig) (job : FetchJob) : HttpClientConfig :=
  { url := job.url
    timeoutMs :=
      if job.options.timeoutMs ≠ 0 then job.options.timeoutMs
      else cfg.defaultTimeoutMs
    disableAutoRedirect := !(job.options.allowRedirects && cfg.followRedirects)
    skipCertCommonNameCheck :=
      job.options.skipTlsCommonNameCheck || cfg.skipTlsCommonNameCheck }

end ESPFetchModel




namespace ESPFetchModel

/-- Claim C10: `runJob` enables automatic redirects exactly when both the
per-request `allowRedirects` flag and the config `followRedirects` flag
are true, and skips the TLS common-name check exactly when at least one
of the per-request or config skip flags is true. -/
theorem redirect_tls_merge (cfg : FetchConfig) (job : FetchJob) :
    ((makeClientConfig cfg job).disableAutoRedirect = false ↔
      (job.options.allowRedirects = true ∧ cfg.followRedirects = true))
  ∧ ((makeClientConfig cfg job).skipCertCommonNameCheck = true ↔
      (job.options.skipTlsCommonNameCheck = true ∨ cfg.skipTlsCommonNameCheck = true)) := by
  constructor
  · simp [makeClientConfig]
  · simp [makeClientConfig]

/-- Claim C2 counterexample: with the default config
(`maxBodyBytes = 16384`) and a per-call `maxBodyBytes` of 0, a streaming
job's body limit is the unlimited sentinel, not the config value that the
claim's single merge rule demands. -/
theorem stream_merge_counterexample :
    (mkStreamJob defaultConfig "https://example.com" defaultOptions).bodyLimit ≠
      claimMergedLimit defaultConfig.maxBodyBytes defaultOptions.maxBodyBytes := by
  decide

/-- Claim C2 as amended: the body and header limits of buffered jobs and
the header limit of streaming jobs merge by the claimed rule (explicit
non-zero per-call value wins, 0 defers to config, resolved 0 means
unlimited); the streaming body limit instead ignores the config: a
per-call value of 0 means unlimited directly. -/
theorem limits_merge_amended (cfg : FetchConfig) (opts : FetchRequestOptions)
    (url : String) (method : HttpMethod) (body : String) :
    (mkJsonJob cfg url method body opts).bodyLimit
      = claimMergedLimit cfg.maxBodyBytes opts.maxBodyBytes
  ∧ (mkJsonJob cfg url method body opts).headerLimit
      = claimMergedLimit cfg.maxHeaderBytes opts.maxHeaderBytes
  ∧ (mkStreamJob cfg url opts).headerLimit
      = claimMergedLimit cfg.maxHeaderBytes opts.maxHeaderBytes
  ∧ (mkStreamJob cfg url opts).bodyLimit
      = (if opts.maxBodyBytes ≠ 0 then opts.maxBodyBytes else sizeMax) :=
  ⟨rfl, rfl, rfl, rfl⟩

/-- Claim C1, evaluated at the failing input: `enqueueRequest` copies the
submitted URL into the job unchanged, so the malformed
`https:/example.com` reaches the transport as-is, while the normalizer
the spec and README describe would produce `https://example.com`. -/
theorem url_not_normalized :
    ((enqueueRequestM ⟨true, defaultConfig⟩ "https:/example.com" HttpMethod.get ""
        defaultOptions true true).job.map FetchJob.url) = some "https:/example.com"
  ∧ specNormalize "https:/example.com" = "https://example.com"
  ∧ ("https:/example.com" : String) ≠ "https://example.com" := by
  refine ⟨by decide, by decide, by decide⟩

/-- Claim C5: under the sync-handle invariant (the completion signal is
only raised after `ready` is set), `waitForResult` returns the stored
real result whenever `ready` is true - including when the wait itself
timed out - and synthesizes the timeout-error result only when the wait
failed and `ready` is still false. -/
theorem waitForResult_ready_check (takeOk ready : Bool) (stored : Json)
    (hinv : takeOk = true → ready = true) :
    (ready = true → waitForResultM true takeOk ready stored = stored)
  ∧ (ready = false →
      waitForResultM true takeOk ready stored = timeoutDoc ∧ takeOk = false) := by
  cases takeOk <;> cases ready <;> simp_all [waitForResultM]

/-- Witness for claim C5 at a concrete input: the signal raced with the
timeout (`takeOk = false`) but `ready` is already true, and the stored
document is returned. -/
theorem waitForResult_ready_check_witness :
    waitForResultM true false true Json.null = Json.null :=
  (waitForResult_ready_check false true Json.null (fun h => Bool.noConfusion h)).1 rfl

/-- Claim C7: an `onHeader` event appends the header (keeping duplicate
names) exactly when the prospective total byte cost of all captured
headers plus the new name and value fits within the header limit;
otherwise it drops the header and sets the headers-truncated flag, and in
both cases the handler reports success. -/
theorem header_capture_policy (s : JobRunState) (nm v : String) :
    (headerCost s.headers + nm.length + v.length ≤ s.headerLimit →
      (handleHttpEvent s (.onHeader nm v)).1 =
        { s with headers := s.headers ++ [(nm, v)] })
  ∧ (s.headerLimit < headerCost s.headers + nm.length + v.length →
      (handleHttpEvent s (.onHeader nm v)).1 = { s with headersTruncated := true })
  ∧ (handleHttpEvent s (.onHeader nm v)).2 = ESP_OK := by
  refine ⟨fun h => ?_, fun h => ?_, ?_⟩
  · simp [handleHttpEvent, captureHeader, h]
  · simp [handleHttpEvent, captureHeader, Nat.not_le.mpr h]
  · by_cases h : headerCost s.headers + nm.length + v.length ≤ s.headerLimit <;>
      simp [handleHttpEvent, captureHeader, h]

/-- Witness for claim C7 at a concrete input: a small header fits and is
appended. -/
theorem header_capture_policy_witness :
    (handleHttpEvent (initBufferedState 4) (.onHeader "a" "b")).1 =
      { initBufferedState 4 with
          headers := (initBufferedState 4).headers ++ [("a", "b")] } :=
  (header_capture_policy (initBufferedState 4) "a" "b").1 (by decide)


/-- Claim C6: the result document's `ok` field is true exactly when the
transport error is `ESP_OK` and the HTTP status lies in [200, 400); the
`error` field is null on transport success and otherwise an object whose
`code` is the transport error and whose `message` is the collaborator's
stable name for that code. -/
theorem result_ok_error_fields (job : FetchJob) (r : FetchResponse) :
    ((buildResult job r).getField "ok" = some (Json.bool true) ↔
      (r.error = ESP_OK ∧ 200 ≤ r.statusCode ∧ r.statusCode < 400))
  ∧ (r.error = ESP_OK → (buildResult job r).getField "error" = some Json.null)
  ∧ (r.error ≠ ESP_OK →
      (buildResult job r).getField "error" =
        some (Json.obj
          [("code", Json.num r.error),
           ("message", Json.str (espErrToName r.error))])) := by
  have hok : (buildResult job r).getField "ok" =
      some (Json.bool (decide (r.error = ESP_OK) &&
        (decide (200 ≤ r.statusCode) && decide (r.statusCode < 400)))) := rfl
  have herr : (buildResult job r).getField "error" =
      some (if r.error = ESP_OK then Json.null
        else Json.obj
          [("code", Json.num r.error),
           ("message", Json.str (espErrToName r.error))]) := rfl
  refine ⟨?_, fun h => ?_, fun h => ?_⟩
  · rw [hok]
    simp [and_assoc]
  · rw [herr, if_pos h]
  · rw [herr, if_neg h]

/-- Witness for claim C6 at a concrete input: a 200 response with no
transport error yields `ok = true` and a null `error`. -/
theorem result_ok_error_fields_witness :
    ((buildResult
        (mkJsonJob defaultConfig "https://example.com" HttpMethod.get "" defaultOptions)
        { error := 0, statusCode := 200, body := [], headers := [],
          bodyTruncated := false, headersTruncated := false,
          durationUs := 0 }).getField "ok" = some (Json.bool true))
  ∧ ((buildResult
        (mkJsonJob defaultConfig "https://example.com" HttpMethod.get "" defaultOptions)
        { error := 0, statusCode := 200, body := [], headers := [],
          bodyTruncated := false, headersTruncated := false,
          durationUs := 0 }).getField "error" = some Json.null) := by
  have h := result_ok_error_fields
    (mkJsonJob defaultConfig "https://example.com" HttpMethod.get "" defaultOptions)
    { error := 0, statusCode := 200, body := [], headers := [],
      bodyTruncated := false, headersTruncated := false, durationUs := 0 }
  exact ⟨h.1.mpr ⟨rfl, by decide, by decide⟩, h.2.1 rfl⟩


/-- Claim C8: when the engine is uninitialized or the URL is absent,
every submission overload returns false (or an error-shaped document for
the synchronous overloads) without acquiring an admission slot, spawning
a worker task, or invoking any callback. -/
theorem submission_fail_fast (st : EngineState) (url : Option String)
    (body : String) (opts : FetchRequestOptions)
    (onChunkValid semAllocOk takeOk spawnOk : Bool) (waitRes : Json)
    (h : st.initialized = false ∨ url = none) :
    getAsyncM st url opts takeOk spawnOk = noSubmit
  ∧ postAsyncM st url body opts takeOk spawnOk = noSubmit
  ∧ getStreamM st url onChunkValid opts takeOk spawnOk = noSubmit
  ∧ (getSyncM st url opts semAllocOk takeOk spawnOk waitRes).2 = noSubmit
  ∧ (getSyncM st url opts semAllocOk takeOk spawnOk waitRes).1.getField "ok"
      = some (Json.bool false)
  ∧ (postSyncM st url body opts semAllocOk takeOk spawnOk waitRes).2 = noSubmit
  ∧ (postSyncM st url body opts semAllocOk takeOk spawnOk waitRes).1.getField "ok"
      = some (Json.bool false) := by
  have hfail : ∀ msg : String,
      (syncFailDoc msg).getField "ok" = some (Json.bool false) := fun msg => rfl
  rcases h with h | h
  · cases url with
    | none =>
      refine ⟨rfl, rfl, rfl, ?_, ?_, ?_, ?_⟩ <;>
        simp [getSyncM, postSyncM, hfail]
    | some u =>
      cases semAllocOk <;> cases onChunkValid <;>
        simp [getAsyncM, postAsyncM, getStreamM, getSyncM, postSyncM,
          enqueueRequestM, enqueueStreamRequestM, h, noSubmit, hfail]
  · subst h
    refine ⟨rfl, rfl, rfl, ?_, ?_, ?_, ?_⟩ <;> simp [getSyncM, postSyncM, hfail]

/-- Witness for claim C8 at a concrete input: an uninitialized engine
rejects an async get without side effects, and the sync overload returns
an error-shaped document. -/
theorem submission_fail_fast_witness :
    getAsyncM ⟨false, defaultConfig⟩ (some "https://example.com") defaultOptions
        true true = noSubmit
  ∧ (getSyncM ⟨false, defaultConfig⟩ (some "https://example.com") defaultOptions
        true true true Json.null).1.getField "ok" = some (Json.bool false) := by
  have h := submission_fail_fast ⟨false, defaultConfig⟩ (some "https://example.com")
    "" defaultOptions true true true true Json.null (Or.inl rfl)
  exact ⟨h.1, h.2.2.2.2.1⟩

/-- Claim C9: whenever a submission acquires an admission slot, the slot
is released exactly once across the whole lifetime - inside the failed
submission itself (invalid stack size or spawn failure, with the job
destroyed) or once at the end of the spawned job's run, on success and
transport-failure outcomes alike - and never released when no slot was
acquired. -/
theorem slot_released_exactly_once (st : EngineState) (url : String)
    (method : HttpMethod) (body : String) (opts : FetchRequestOptions)
    (onChunkValid takeOk spawnOk : Bool) (response : FetchResponse)
    (receivedBytes : Nat) (semExists : Bool) (hsem : semExists = true) :
    totalReleases (enqueueRequestM st url method body opts takeOk spawnOk)
        response receivedBytes semExists
      = (if (enqueueRequestM st url method body opts takeOk spawnOk).slotAcquired
          then 1 else 0)
  ∧ totalReleases (enqueueStreamRequestM st url onChunkValid opts takeOk spawnOk)
        response receivedBytes semExists
      = (if (enqueueStreamRequestM st url onChunkValid opts takeOk spawnOk).slotAcquired
          then 1 else 0)
  ∧ ((enqueueRequestM st url method body opts takeOk spawnOk).returned = false →
      (enqueueRequestM st url method body opts takeOk spawnOk).job = none)
  ∧ (∀ j : FetchJob, (runJobM j response receivedBytes semExists).slotReleases = 1) := by
  subst hsem
  have hrun : ∀ j : FetchJob,
      (runJobM j response receivedBytes true).slotReleases = 1 := by
    intro j
    by_cases hj : j.isStream <;> simp [runJobM, hj]
  refine ⟨?_, ?_, ?_, hrun⟩
  · simp only [enqueueRequestM]
    split_ifs <;>
      simp_all [totalReleases, noSubmit, failAfterAcquire, hrun]
  · simp only [enqueueStreamRequestM]
    split_ifs <;>
      simp_all [totalReleases, noSubmit, failAfterAcquire, hrun]
  · simp only [enqueueRequestM]
    split_ifs <;> simp [noSubmit, failAfterAcquire]

/-- Witness for claim C9 at a concrete input: a successful buffered
submission whose job later completes with a transport failure releases
its slot exactly once. -/
theorem slot_released_exactly_once_witness :
    totalReleases (enqueueRequestM ⟨true, defaultConfig⟩ "https://example.com"
        HttpMethod.get "" defaultOptions true true)
        { error := -1, statusCode := 0, body := [], headers := [],
          bodyTruncated := false, headersTruncated := false, durationUs := 0 }
        0 true
      = (if (enqueueRequestM ⟨true, defaultConfig⟩ "https://example.com"
            HttpMethod.get "" defaultOptions true true).slotAcquired
          then 1 else 0) := by
  have h := slot_released_exactly_once ⟨true, defaultConfig⟩ "https://example.com"
    HttpMethod.get "" defaultOptions true true true
    { error := -1, statusCode := 0, body := [], headers := [],
      bodyTruncated := false, headersTruncated := false, durationUs := 0 }
    0 true rfl
  exact h.1


theorem espOK_ne_fail : ESP_OK ≠ ESP_FAIL := by decide

theorem streamToSend_le_len (s : JobRunState) (len : Nat) :
    streamToSend s len ≤ len := by
  unfold streamToSend
  split_ifs
  · exact Nat.min_le_left _ _
  · exact Nat.le_refl _

theorem streamToSend_budget (s : JobRunState) (len : Nat)
    (hfin : s.bodyLimit ≠ sizeMax) (h : s.receivedBytes ≤ s.bodyLimit) :
    s.receivedBytes + streamToSend s len ≤ s.bodyLimit := by
  unfold streamToSend
  rw [if_pos hfin]
  have := Nat.min_le_right len (s.bodyLimit - s.receivedBytes)
  omega

theorem streamOnData_overLimit (s : JobRunState) (data : List Char)
    (h1 : s.bodyLimit ≠ sizeMax ∧ s.bodyLimit ≤ s.receivedBytes) :
    streamOnData s data = ({ s with errorCode := ESP_ERR_INVALID_SIZE }, ESP_FAIL) := by
  simp only [streamOnData]
  rw [if_pos h1]

theorem streamOnData_clip_fin (s : JobRunState) (data : List Char)
    (h3 : streamToSend s data.length < data.length) : s.bodyLimit ≠ sizeMax := by
  intro he
  unfold streamToSend at h3
  rw [if_neg (not_not_intro he)] at h3
  exact absurd h3 (lt_irrefl _)

theorem streamOnData_clip (s : JobRunState) (data : List Char)
    (h1 : ¬(s.bodyLimit ≠ sizeMax ∧ s.bodyLimit ≤ s.receivedBytes))
    (h3 : streamToSend s data.length < data.length) :
    streamOnData s data =
      ({ s with sinkLog := s.sinkLog ++ [data.take (streamToSend s data.length)]
                receivedBytes := s.receivedBytes + streamToSend s data.length
                errorCode := ESP_ERR_INVALID_SIZE }, ESP_FAIL) := by
  have hf : s.bodyLimit ≠ sizeMax := streamOnData_clip_fin s data h3
  have hlt : s.receivedBytes < s.bodyLimit := by
    rcases Nat.lt_or_ge s.receivedBytes s.bodyLimit with h | h
    · exact h
    · exact absurd ⟨hf, h⟩ h1
  have h2 : 0 < streamToSend s data.length := by
    unfold streamToSend at h3 ⊢
    rw [if_pos hf] at h3 ⊢
    rw [Nat.min_def] at h3 ⊢
    split_ifs at h3 ⊢ <;> omega
  simp only [streamOnData]
  rw [if_neg h1, if_pos h2, if_pos h3]

theorem streamOnData_full (s : JobRunState) (data : List Char)
    (h1 : ¬(s.bodyLimit ≠ sizeMax ∧ s.bodyLimit ≤ s.receivedBytes))
    (h3 : data.length ≤ streamToSend s data.length) :
    streamOnData s data =
      (if 0 < data.length then
        { s with sinkLog := s.sinkLog ++ [data]
                 receivedBytes := s.receivedBytes + data.length }
       else s, ESP_OK) := by
  have heq : streamToSend s data.length = data.length :=
    Nat.le_antisymm (streamToSend_le_len s data.length) h3
  simp only [streamOnData]
  rw [if_neg h1, heq, List.take_length, if_neg (lt_irrefl data.length)]


theorem streamOnData_trichotomy (s : JobRunState) (data : List Char) :
    (s.bodyLimit ≠ sizeMax ∧ s.bodyLimit ≤ s.receivedBytes)
  ∨ (¬(s.bodyLimit ≠ sizeMax ∧ s.bodyLimit ≤ s.receivedBytes)
      ∧ streamToSend s data.length < data.length)
  ∨ (¬(s.bodyLimit ≠ sizeMax ∧ s.bodyLimit ≤ s.receivedBytes)
      ∧ data.length ≤ streamToSend s data.length) := by
  by_cases h1 : s.bodyLimit ≠ sizeMax ∧ s.bodyLimit ≤ s.receivedBytes
  · exact Or.inl h1
  · rcases Nat.lt_or_ge (streamToSend s data.length) data.length with h3 | h3
    · exact Or.inr (Or.inl ⟨h1, h3⟩)
    · exact Or.inr (Or.inr ⟨h1, h3⟩)

theorem streamOnData_preserves (s : JobRunState) (data : List Char) :
    (streamOnData s data).1.isStream = s.isStream
  ∧ (streamOnData s data).1.bodyLimit = s.bodyLimit := by
  rcases streamOnData_trichotomy s data with h | ⟨h1, h3⟩ | ⟨h1, h3⟩
  · rw [streamOnData_overLimit s data h]; exact ⟨rfl, rfl⟩
  · rw [streamOnData_clip s data h1 h3]; exact ⟨rfl, rfl⟩
  · rw [streamOnData_full s data h1 h3]
    by_cases h0 : 0 < data.length <;> simp [h0]

theorem streamOnData_fail_error (s : JobRunState) (data : List Char)
    (h : (streamOnData s data).2 = ESP_FAIL) :
    (streamOnData s data).1.errorCode = ESP_ERR_INVALID_SIZE := by
  rcases streamOnData_trichotomy s data with h1 | ⟨h1, h3⟩ | ⟨h1, h3⟩
  · rw [streamOnData_overLimit s data h1]
  · rw [streamOnData_clip s data h1 h3]
  · rw [streamOnData_full s data h1 h3] at h
    exact absurd h espOK_ne_fail

theorem streamOnData_ok_received (s : JobRunState) (data : List Char)
    (h : (streamOnData s data).2 ≠ ESP_FAIL) :
    (streamOnData s data).1.receivedBytes = s.receivedBytes + data.length
  ∧ (streamOnData s data).1.errorCode = s.errorCode := by
  rcases streamOnData_trichotomy s data with h1 | ⟨h1, h3⟩ | ⟨h1, h3⟩
  · rw [streamOnData_overLimit s data h1] at h
    exact absurd rfl h
  · rw [streamOnData_clip s data h1 h3] at h
    exact absurd rfl h
  · rw [streamOnData_full s data h1 h3]
    by_cases h0 : 0 < data.length
    · simp [h0]
    · have hz : data.length = 0 := by omega
      simp [h0, hz]

theorem streamOnData_received_le (s : JobRunState) (data : List Char)
    (hfin : s.bodyLimit ≠ sizeMax) (h : s.receivedBytes ≤ s.bodyLimit) :
    (streamOnData s data).1.receivedBytes ≤ s.bodyLimit := by
  have hb := streamToSend_budget s data.length hfin h
  rcases streamOnData_trichotomy s data with h1 | ⟨h1, h3⟩ | ⟨h1, h3⟩
  · rw [streamOnData_overLimit s data h1]; exact h
  · rw [streamOnData_clip s data h1 h3]
    simpa using hb
  · have heq : streamToSend s data.length = data.length :=
      Nat.le_antisymm (streamToSend_le_len s data.length) h3
    rw [streamOnData_full s data h1 h3]
    by_cases h0 : 0 < data.length <;> simp [h0] <;> omega

theorem streamOnData_delivered (s : JobRunState) (data : List Char)
    (h : deliveredBytes s = s.receivedBytes) :
    deliveredBytes (streamOnData s data).1 = (streamOnData s data).1.receivedBytes := by
  rcases streamOnData_trichotomy s data with h1 | ⟨h1, h3⟩ | ⟨h1, h3⟩
  · rw [streamOnData_overLimit s data h1]; exact h
  · rw [streamOnData_clip s data h1 h3]
    have hle := streamToSend_le_len s data.length
    simp [deliveredBytes] at h ⊢
    rw [min_eq_left hle]
    omega
  · rw [streamOnData_full s data h1 h3]
    by_cases h0 : 0 < data.length <;> simp [deliveredBytes, h0] at h ⊢ <;> omega


theorem handle_onData_empty (s : JobRunState) (data : List Char)
    (hc : data.length = 0) :
    handleHttpEvent s (.onData data) = (s, ESP_OK) := by
  simp [handleHttpEvent, hc]

theorem handle_onData_stream (s : JobRunState) (data : List Char)
    (hs : s.isStream = true) (hc : data.length ≠ 0) :
    handleHttpEvent s (.onData data) = streamOnData s data := by
  simp [handleHttpEvent, hc, hs]

theorem runEvents_cons (s : JobRunState) (ev : HttpEvent) (rest : List HttpEvent) :
    runEvents s (ev :: rest) =
      if (handleHttpEvent s ev).2 = ESP_FAIL then handleHttpEvent s ev
      else runEvents (handleHttpEvent s ev).1 rest := rfl

theorem stream_run_exceeds_aux (K : Nat) (hK : K ≠ sizeMax) :
    ∀ (chunks : List (List Char)) (s : JobRunState),
      s.isStream = true → s.bodyLimit = K →
      deliveredBytes s = s.receivedBytes → s.receivedBytes ≤ K →
      K < s.receivedBytes + (chunks.map List.length).sum →
      deliveredBytes (runEvents s (chunks.map HttpEvent.onData)).1
          = (runEvents s (chunks.map HttpEvent.onData)).1.receivedBytes
      ∧ (runEvents s (chunks.map HttpEvent.onData)).1.receivedBytes ≤ K
      ∧ (runEvents s (chunks.map HttpEvent.onData)).1.errorCode = ESP_ERR_INVALID_SIZE
      ∧ (runEvents s (chunks.map HttpEvent.onData)).2 = ESP_FAIL := by
  intro chunks
  induction chunks with
  | nil =>
    intro s _ _ _ h4 h5
    simp only [List.map_nil, List.sum_nil] at h5
    omega
  | cons c cs ih =>
    intro s h1 h2 h3 h4 h5
    simp only [List.map_cons, List.sum_cons] at h5
    rw [List.map_cons, runEvents_cons]
    by_cases hc : c.length = 0
    · rw [handle_onData_empty s c hc]
      rw [if_neg (by simpa using espOK_ne_fail)]
      exact ih s h1 h2 h3 h4 (by omega)
    · rw [handle_onData_stream s c h1 hc]
      by_cases hf : (streamOnData s c).2 = ESP_FAIL
      · rw [if_pos hf]
        refine ⟨streamOnData_delivered s c h3, ?_, streamOnData_fail_error s c hf, hf⟩
        have := streamOnData_received_le s c (h2 ▸ hK) (h2 ▸ h4)
        omega
      · rw [if_neg hf]
        have hrec := streamOnData_ok_received s c hf
        have hpres := streamOnData_preserves s c
        refine ih (streamOnData s c).1 (hpres.1.trans h1) (hpres.2.trans h2)
          (streamOnData_delivered s c h3) ?_ ?_
        · have := streamOnData_received_le s c (h2 ▸ hK) (h2 ▸ h4)
          omega
        · rw [hrec.1]
          omega

/-- Claim C3: in streaming mode with finite body limit K, any sequence of
data events whose total length exceeds K delivers to the sink exactly the
bytes counted by `receivedBytes`, at most K in total, marks the job with
`ESP_ERR_INVALID_SIZE`, and the handler returns the abort verdict on the
event that clipped a chunk or arrived after the limit was reached. -/
theorem stream_limit_abort (K : Nat) (chunks : List (List Char))
    (hK : K ≠ sizeMax)
    (htotal : K < (chunks.map List.length).sum) :
    deliveredBytes (runEvents (initStreamState K) (chunks.map HttpEvent.onData)).1
        = (runEvents (initStreamState K) (chunks.map HttpEvent.onData)).1.receivedBytes
  ∧ (runEvents (initStreamState K) (chunks.map HttpEvent.onData)).1.receivedBytes ≤ K
  ∧ (runEvents (initStreamState K) (chunks.map HttpEvent.onData)).1.errorCode
      = ESP_ERR_INVALID_SIZE
  ∧ (runEvents (initStreamState K) (chunks.map HttpEvent.onData)).2 = ESP_FAIL := by
  refine stream_run_exceeds_aux K hK chunks (initStreamState K) rfl rfl rfl ?_ ?_
  · simp [initStreamState]
  · simpa [initStreamState] using htotal

/-- Witness for claim C3 at a concrete input: three one-byte chunks
against a two-byte limit abort with the size-exceeded error. -/
theorem stream_limit_abort_witness :
    deliveredBytes (runEvents (initStreamState 2)
        ([['a'], ['b'], ['c']].map HttpEvent.onData)).1
      = (runEvents (initStreamState 2)
        ([['a'], ['b'], ['c']].map HttpEvent.onData)).1.receivedBytes
  ∧ (runEvents (initStreamState 2)
        ([['a'], ['b'], ['c']].map HttpEvent.onData)).1.receivedBytes ≤ 2
  ∧ (runEvents (initStreamState 2)
        ([['a'], ['b'], ['c']].map HttpEvent.onData)).1.errorCode
      = ESP_ERR_INVALID_SIZE
  ∧ (runEvents (initStreamState 2)
        ([['a'], ['b'], ['c']].map HttpEvent.onData)).2 = ESP_FAIL :=
  stream_limit_abort 2 [['a'], ['b'], ['c']] (by decide) (by decide)

theorem bufferedCopyLen_le_len (s : JobRunState) (len : Nat) :
    bufferedCopyLen s len ≤ len :=
  Nat.min_le_right _ _

theorem bufferedAvail_budget (s : JobRunState) :
    s.body.length + bufferedAvail s ≤ s.bodyLimit ∨ bufferedAvail s = 0 := by
  unfold bufferedAvail
  split_ifs with h
  · left; omega
  · right; rfl

theorem bufferedOnData_caseA (s : JobRunState) (data : List Char)
    (h1 : 0 < bufferedCopyLen s data.length)
    (h2 : bufferedCopyLen s data.length < data.length) :
    bufferedOnData s data =
      ({ s with body := s.body ++ data.take (bufferedCopyLen s data.length)
                bodyTruncated := true }, ESP_OK) := by
  simp only [bufferedOnData]
  rw [if_pos h1, if_pos h2]

theorem bufferedOnData_caseB (s : JobRunState) (data : List Char)
    (h1 : ¬0 < bufferedCopyLen s data.length)
    (h2 : bufferedCopyLen s data.length < data.length) :
    bufferedOnData s data = ({ s with bodyTruncated := true }, ESP_OK) := by
  simp only [bufferedOnData]
  rw [if_neg h1, if_pos h2]

theorem bufferedOnData_caseC (s : JobRunState) (data : List Char)
    (h1 : 0 < bufferedCopyLen s data.length)
    (h2 : ¬bufferedCopyLen s data.length < data.length) :
    bufferedOnData s data =
      ({ s with body := s.body ++ data.take (bufferedCopyLen s data.length) },
       ESP_OK) := by
  simp only [bufferedOnData]
  rw [if_pos h1, if_neg h2]

theorem bufferedOnData_caseD (s : JobRunState) (data : List Char)
    (h1 : ¬0 < bufferedCopyLen s data.length)
    (h2 : ¬bufferedCopyLen s data.length < data.length) :
    bufferedOnData s data = (s, ESP_OK) := by
  simp only [bufferedOnData]
  rw [if_neg h1, if_neg h2]

theorem bufferedOnData_snd (s : JobRunState) (data : List Char) :
    (bufferedOnData s data).2 = ESP_OK := by
  by_cases h1 : 0 < bufferedCopyLen s data.length <;>
    by_cases h2 : bufferedCopyLen s data.length < data.length
  · rw [bufferedOnData_caseA s data h1 h2]
  · rw [bufferedOnData_caseC s data h1 h2]
  · rw [bufferedOnData_caseB s data h1 h2]
  · rw [bufferedOnData_caseD s data h1 h2]

theorem bufferedOnData_preserves (s : JobRunState) (data : List Char) :
    (bufferedOnData s data).1.isStream = s.isStream
  ∧ (bufferedOnData s data).1.bodyLimit = s.bodyLimit := by
  by_cases h1 : 0 < bufferedCopyLen s data.length <;>
    by_cases h2 : bufferedCopyLen s data.length < data.length
  · rw [bufferedOnData_caseA s data h1 h2]; exact ⟨rfl, rfl⟩
  · rw [bufferedOnData_caseC s data h1 h2]; exact ⟨rfl, rfl⟩
  · rw [bufferedOnData_caseB s data h1 h2]; exact ⟨rfl, rfl⟩
  · rw [bufferedOnData_caseD s data h1 h2]; exact ⟨rfl, rfl⟩

theorem bufferedOnData_trunc_mono (s : JobRunState) (data : List Char)
    (h : s.bodyTruncated = true) :
    (bufferedOnData s data).1.bodyTruncated = true := by
  by_cases h1 : 0 < bufferedCopyLen s data.length <;>
    by_cases h2 : bufferedCopyLen s data.length < data.length
  · rw [bufferedOnData_caseA s data h1 h2]
  · rw [bufferedOnData_caseC s data h1 h2]; exact h
  · rw [bufferedOnData_caseB s data h1 h2]
  · rw [bufferedOnData_caseD s data h1 h2]; exact h

theorem bufferedOnData_body_le (s : JobRunState) (data : List Char)
    (h : s.body.length ≤ s.bodyLimit) :
    (bufferedOnData s data).1.body.length ≤ s.bodyLimit := by
  have hcl1 : bufferedCopyLen s data.length ≤ bufferedAvail s := Nat.min_le_left _ _
  have hcl2 := bufferedCopyLen_le_len s data.length
  have hbudget := bufferedAvail_budget s
  have hlen : (data.take (bufferedCopyLen s data.length)).length
      = bufferedCopyLen s data.length := by
    rw [List.length_take]
    exact min_eq_left hcl2
  by_cases h1 : 0 < bufferedCopyLen s data.length <;>
    by_cases h2 : bufferedCopyLen s data.length < data.length
  · rw [bufferedOnData_caseA s data h1 h2]
    simp only [List.length_append, hlen]
    omega
  · rw [bufferedOnData_caseC s data h1 h2]
    simp only [List.length_append, hlen]
    omega
  · rw [bufferedOnData_caseB s data h1 h2]; exact h
  · rw [bufferedOnData_caseD s data h1 h2]; exact h

theorem bufferedOnData_fits (s : JobRunState) (data : List Char)
    (h : s.body.length + data.length ≤ s.bodyLimit) :
    (bufferedOnData s data).1.body = s.body ++ data
  ∧ (bufferedOnData s data).1.bodyTruncated = s.bodyTruncated := by
  have hcl : bufferedCopyLen s data.length = data.length := by
    by_cases h0 : 0 < data.length
    · have hlt : s.body.length < s.bodyLimit := by omega
      unfold bufferedCopyLen bufferedAvail
      rw [if_pos hlt]
      exact min_eq_right (by omega)
    · have hz : data.length = 0 := by omega
      unfold bufferedCopyLen
      omega
  by_cases h0 : 0 < data.length
  · have h1 : 0 < bufferedCopyLen s data.length := by omega
    have h2 : ¬bufferedCopyLen s data.length < data.length := by omega
    rw [bufferedOnData_caseC s data h1 h2, hcl, List.take_length]
    exact ⟨rfl, rfl⟩
  · have hz : data.length = 0 := by omega
    have h1 : ¬0 < bufferedCopyLen s data.length := by omega
    have h2 : ¬bufferedCopyLen s data.length < data.length := by omega
    rw [bufferedOnData_caseD s data h1 h2]
    have hnil : data = [] := List.length_eq_zero.mp hz
    subst hnil
    exact ⟨(List.append_nil s.body).symm, rfl⟩

theorem bufferedOnData_noTrunc_full (s : JobRunState) (data : List Char)
    (h : (bufferedOnData s data).1.bodyTruncated = false) :
    (bufferedOnData s data).1.body.length = s.body.length + data.length := by
  have hcl2 := bufferedCopyLen_le_len s data.length
  have hlen : (data.take (bufferedCopyLen s data.length)).length
      = bufferedCopyLen s data.length := by
    rw [List.length_take]
    exact min_eq_left hcl2
  by_cases h2 : bufferedCopyLen s data.length < data.length
  · by_cases h1 : 0 < bufferedCopyLen s data.length
    · rw [bufferedOnData_caseA s data h1 h2] at h
      exact absurd h (by simp)
    · rw [bufferedOnData_caseB s data h1 h2] at h
      exact absurd h (by simp)
  · have hcl : bufferedCopyLen s data.length = data.length := by omega
    by_cases h1 : 0 < bufferedCopyLen s data.length
    · rw [bufferedOnData_caseC s data h1 h2]
      simp only [List.length_append, hlen]
      omega
    · rw [bufferedOnData_caseD s data h1 h2]
      show s.body.length = s.body.length + data.length
      omega

theorem handle_onData_buffered (s : JobRunState) (data : List Char)
    (hs : s.isStream = false) (hc : data.length ≠ 0) :
    handleHttpEvent s (.onData data) = bufferedOnData s data := by
  simp [handleHttpEvent, hc, hs]

theorem handle_buffered_step (s : JobRunState) (ev : HttpEvent)
    (hs : s.isStream = false) :
    (handleHttpEvent s ev).2 = ESP_OK
  ∧ (handleHttpEvent s ev).1.isStream = false
  ∧ (handleHttpEvent s ev).1.bodyLimit = s.bodyLimit := by
  cases ev with
  | onData data =>
    by_cases hc : data.length = 0
    · rw [handle_onData_empty s data hc]
      exact ⟨rfl, hs, rfl⟩
    · rw [handle_onData_buffered s data hs hc]
      have hp := bufferedOnData_preserves s data
      exact ⟨bufferedOnData_snd s data, hp.1.trans hs, hp.2⟩
  | onHeader nm v =>
    simp only [handleHttpEvent, captureHeader]
    split_ifs <;> exact ⟨rfl, hs, rfl⟩
  | other => exact ⟨rfl, hs, rfl⟩

theorem handle_trunc_mono (s : JobRunState) (ev : HttpEvent)
    (h : s.bodyTruncated = true) :
    (handleHttpEvent s ev).1.bodyTruncated = true := by
  cases ev with
  | onData data =>
    by_cases hc : data.length = 0
    · rw [handle_onData_empty s data hc]; exact h
    · by_cases hs : s.isStream = true
      · rw [handle_onData_stream s data hs hc]
        rcases streamOnData_trichotomy s data with h1 | ⟨h1, h3⟩ | ⟨h1, h3⟩
        · rw [streamOnData_overLimit s data h1]; exact h
        · rw [streamOnData_clip s data h1 h3]; exact h
        · rw [streamOnData_full s data h1 h3]
          by_cases h0 : 0 < data.length <;> simp [h0, h]
      · rw [handle_onData_buffered s data (by simpa using hs) hc]
        exact bufferedOnData_trunc_mono s data h
  | onHeader nm v =>
    simp only [handleHttpEvent, captureHeader]
    split_ifs <;> exact h
  | other => exact h

theorem run_trunc_mono :
    ∀ (evs : List HttpEvent) (s : JobRunState), s.bodyTruncated = true →
      (runEvents s evs).1.bodyTruncated = true := by
  intro evs
  induction evs with
  | nil => intro s h; exact h
  | cons ev rest ih =>
    intro s h
    rw [runEvents_cons]
    by_cases hf : (handleHttpEvent s ev).2 = ESP_FAIL
    · rw [if_pos hf]
      exact handle_trunc_mono s ev h
    · rw [if_neg hf]
      exact ih (handleHttpEvent s ev).1 (handle_trunc_mono s ev h)

theorem buffered_run_verdict :
    ∀ (evs : List HttpEvent) (s : JobRunState), s.isStream = false →
      (runEvents s evs).2 = ESP_OK
    ∧ (runEvents s evs).1.isStream = false
    ∧ (runEvents s evs).1.bodyLimit = s.bodyLimit := by
  intro evs
  induction evs with
  | nil => intro s hs; exact ⟨rfl, hs, rfl⟩
  | cons ev rest ih =>
    intro s hs
    have h := handle_buffered_step s ev hs
    rw [runEvents_cons, if_neg (by rw [h.1]; exact espOK_ne_fail)]
    have hr := ih (handleHttpEvent s ev).1 h.2.1
    exact ⟨hr.1, hr.2.1, hr.2.2.trans h.2.2⟩

theorem buffered_run_body_le :
    ∀ (chunks : List (List Char)) (s : JobRunState), s.isStream = false →
      s.body.length ≤ s.bodyLimit →
      (runEvents s (chunks.map HttpEvent.onData)).1.body.length ≤ s.bodyLimit := by
  intro chunks
  induction chunks with
  | nil => intro s _ h; exact h
  | cons c cs ih =>
    intro s hs h
    rw [List.map_cons, runEvents_cons]
    by_cases hc : c.length = 0
    · rw [handle_onData_empty s c hc, if_neg (by simpa using espOK_ne_fail)]
      exact ih s hs h
    · rw [handle_onData_buffered s c hs hc,
        if_neg (by rw [bufferedOnData_snd s c]; exact espOK_ne_fail)]
      have hp := bufferedOnData_preserves s c
      have hb := bufferedOnData_body_le s c h
      have := ih (bufferedOnData s c).1 (hp.1.trans hs) (by rw [hp.2]; exact hb)
      rw [hp.2] at this
      exact this

theorem buffered_run_fits :
    ∀ (chunks : List (List Char)) (s : JobRunState), s.isStream = false →
      s.bodyTruncated = false →
      s.body.length + (chunks.map List.length).sum ≤ s.bodyLimit →
      (runEvents s (chunks.map HttpEvent.onData)).1.body = s.body ++ chunks.flatten
    ∧ (runEvents s (chunks.map HttpEvent.onData)).1.bodyTruncated = false := by
  intro chunks
  induction chunks with
  | nil =>
    intro s _ ht _
    exact ⟨(List.append_nil s.body).symm, ht⟩
  | cons c cs ih =>
    intro s hs ht h
    simp only [List.map_cons, List.sum_cons] at h
    rw [List.map_cons, runEvents_cons]
    by_cases hc : c.length = 0
    · rw [handle_onData_empty s c hc, if_neg (by simpa using espOK_ne_fail)]
      have hnil : c = [] := List.length_eq_zero.mp hc
      subst hnil
      have := ih s hs ht (by simpa using h)
      simpa using this
    · rw [handle_onData_buffered s c hs hc,
        if_neg (by rw [bufferedOnData_snd s c]; exact espOK_ne_fail)]
      have hp := bufferedOnData_preserves s c
      have hfit := bufferedOnData_fits s c (by omega)
      have hrec := ih (bufferedOnData s c).1 (hp.1.trans hs)
        (hfit.2.trans ht)
        (by
          rw [hfit.1, hp.2, List.length_append]
          omega)
      rw [hfit.1, List.append_assoc] at hrec
      rw [List.flatten_cons]
      exact hrec

theorem buffered_run_full :
    ∀ (chunks : List (List Char)) (s : JobRunState), s.isStream = false →
      s.bodyTruncated = false →
      (runEvents s (chunks.map HttpEvent.onData)).1.bodyTruncated = false →
      (runEvents s (chunks.map HttpEvent.onData)).1.body.length
        = s.body.length + (chunks.map List.length).sum := by
  intro chunks
  induction chunks with
  | nil =>
    intro s _ _ _
    simp [runEvents]
  | cons c cs ih =>
    intro s hs ht h
    rw [List.map_cons, runEvents_cons] at h ⊢
    by_cases hc : c.length = 0
    · rw [handle_onData_empty s c hc, if_neg (by simpa using espOK_ne_fail)] at h ⊢
      rw [ih s hs ht h]
      simp [hc]
    · rw [handle_onData_buffered s c hs hc,
        if_neg (by rw [bufferedOnData_snd s c]; exact espOK_ne_fail)] at h ⊢
      have hp := bufferedOnData_preserves s c
      have h1 : (bufferedOnData s c).1.bodyTruncated = false := by
        by_contra hx
        have : (bufferedOnData s c).1.bodyTruncated = true := by
          revert hx
          cases (bufferedOnData s c).1.bodyTruncated <;> simp
        rw [run_trunc_mono (cs.map HttpEvent.onData) (bufferedOnData s c).1 this] at h
        exact Bool.noConfusion h
      rw [ih (bufferedOnData s c).1 (hp.1.trans hs) h1 h,
        bufferedOnData_noTrunc_full s c h1]
      simp only [List.map_cons, List.sum_cons]
      omega

/-- Claim C4: in buffered mode the stored body never exceeds the body
limit; a total body that fits is stored in full with the truncation flag
clear; a total that exceeds the limit sets the truncation flag; the
handler never aborts; and once set, the body-truncated flag never clears
for the rest of the job. -/
theorem buffered_truncation (K : Nat) (chunks : List (List Char)) :
    (runEvents (initBufferedState K) (chunks.map HttpEvent.onData)).1.body.length ≤ K
  ∧ ((chunks.map List.length).sum ≤ K →
      (runEvents (initBufferedState K) (chunks.map HttpEvent.onData)).1.body
          = chunks.flatten
      ∧ (runEvents (initBufferedState K)
          (chunks.map HttpEvent.onData)).1.bodyTruncated = false)
  ∧ (K < (chunks.map List.length).sum →
      (runEvents (initBufferedState K)
        (chunks.map HttpEvent.onData)).1.bodyTruncated = true)
  ∧ (runEvents (initBufferedState K) (chunks.map HttpEvent.onData)).2 = ESP_OK
  ∧ (∀ (s : JobRunState) (evs : List HttpEvent), s.bodyTruncated = true →
      (runEvents s evs).1.bodyTruncated = true) := by
  refine ⟨?_, ?_, ?_, (buffered_run_verdict _ _ rfl).1, fun s evs h => run_trunc_mono evs s h⟩
  · have h := buffered_run_body_le chunks (initBufferedState K) rfl
      (by simp [initBufferedState])
    simpa [initBufferedState] using h
  · intro h
    have hfit := buffered_run_fits chunks (initBufferedState K) rfl rfl
      (by simpa [initBufferedState] using h)
    simpa [initBufferedState] using hfit
  · intro h
    by_contra hx
    have hfl : (runEvents (initBufferedState K)
        (chunks.map HttpEvent.onData)).1.bodyTruncated = false := by
      revert hx
      cases (runEvents (initBufferedState K)
        (chunks.map HttpEvent.onData)).1.bodyTruncated <;> simp
    have hfull := buffered_run_full chunks (initBufferedState K) rfl rfl hfl
    have hle := buffered_run_body_le chunks (initBufferedState K) rfl
      (by simp [initBufferedState])
    simp only [initBufferedState, List.length_nil, Nat.zero_add] at hfull hle
    omega

/-- Witness for claim C4 at concrete inputs: a one-byte body within a
two-byte limit is stored in full, and a two-byte body against a one-byte
limit sets the truncation flag. -/
theorem buffered_truncation_witness :
    (runEvents (initBufferedState 2)
        ([['a']].map HttpEvent.onData)).1.body = [['a']].flatten
  ∧ (runEvents (initBufferedState 1)
        ([['a', 'b']].map HttpEvent.onData)).1.bodyTruncated = true := by
  have h1 := buffered_truncation 2 [['a']]
  have h2 := buffered_truncation 1 [['a', 'b']]
  exact ⟨(h1.2.1 (by decide)).1, h2.2.2.1 (by decide)⟩

end ESPFetchModel
